import Mathlib

/-!
Shallow embedding of the `competitive_analysis` Python package
(analyzers/web.py, analyzers/seo.py, analyzers/news.py, analyzers/base.py,
config.py, exporters.py, cli.py) together with theorems settling the
specification claims about it.

Modelling conventions:
* Parsed HTML is abstracted to the data the analyzers observe through
  BeautifulSoup: document-order heading nodes (each carrying its stripped
  `get_text(strip=True)` text), meta-tag contents as `Option String`
  (mirroring Python truthiness: `none` = tag or attribute absent), counts
  of anchors/images, and the raw markup string.
* Python `dict` values are association lists in insertion order with the
  `dict` update discipline (overwriting a key keeps its position).
* Machine integers/counts are `Nat`; the points in time of the run model
  are `Nat` as well.
* Fallible library parsing (XML, JSON) appears as `Option`-valued inputs;
  `try/except` becomes explicit `Option`/`Except` handling.
-/

namespace CompetitiveAnalysis

/-! ### Generic string helpers (case-insensitive substring search) -/

/-- `isPre n h` holds when list `n` starts list `h` (Python `str.startswith`
on the character level). -/
def isPre : List Char → List Char → Bool
  | [], _ => true
  | _ :: _, [] => false
  | a :: as, b :: bs => a == b && isPre as bs

/-- `hasSub n h`: the character list `n` occurs contiguously somewhere in
`h` (Python `n in h`). -/
def hasSub (needle : List Char) : List Char → Bool
  | [] => isPre needle []
  | c :: rest => isPre needle (c :: rest) || hasSub needle rest

/-- Characters of a string lower-cased (models Python `str.lower()` on the
ASCII alphabet the signatures use). -/
def lowerList (s : String) : List Char :=
  s.toList.map Char.toLower

/-! ### Heading / page model (what BeautifulSoup exposes to the analyzers) -/

/-- The three heading levels the web analyzer queries with `find_all`. -/
inductive HTag
  | h1
  | h2
  | h3
  deriving DecidableEq, Repr

/-- The lower-case tag name, as used in `f"{tag}: {text}"`. -/
def HTag.label : HTag → String
  | .h1 => "h1"
  | .h2 => "h2"
  | .h3 => "h3"

/-- One heading element in document order; `text` is the already stripped
`get_text(strip=True)` value. -/
structure HeadingNode where
  tag : HTag
  text : String
  deriving DecidableEq, Repr

/-- The observable content of a fetched HTML document, as both analyzers
read it through BeautifulSoup.  `Option` fields model Python truthiness of
`tag and tag.get("content")`: `none` stands for an absent tag or absent
attribute. -/
structure HtmlPage where
  pageTitle : Option String
  metaDescription : Option String
  metaKeywordsContent : Option String
  headingNodes : List HeadingNode
  anchorsWithHref : Nat
  images : Nat
  canonicalHref : Option String
  robotsContent : Option String
  ogMetaTags : List (String × String)
  jsonLdBlocks : List (Option String)
  raw : String
  deriving Repr

/-- Python truthiness of an optional string: `None` and `""` are falsy.
Used wherever the source writes `if tag and tag.get("content"):`. -/
def truthy : Option String → Option String
  | none => none
  | some s => if s = "" then none else some s

/-- Python `s.split(",")`: split at every comma, keeping empty pieces
(`"".split(",") == [""]`). -/
def splitOnComma (cs : List Char) : List (List Char) :=
  cs.foldr
    (fun c acc =>
      match acc with
      | [] => [[c]]
      | cur :: done => if c = ',' then [] :: cur :: done else (c :: cur) :: done)
    [[]]

/-- Python `s.strip()`: drop leading and trailing whitespace. -/
def trimChars (cs : List Char) : List Char :=
  ((cs.dropWhile Char.isWhitespace).reverse.dropWhile Char.isWhitespace).reverse

/-- Python slicing `s[:n]` on a string. -/
def pyTake (s : String) (n : Nat) : String :=
  String.mk (s.toList.take n)

/-! ### Web analyzer (`analyzers/web.py`) -/

/-- Result record `WebAnalysisResult` of `models.py` (floats are embedded
as integral milliseconds, see `fmt2f`). -/
structure WebAnalysisResult where
  title : Option String
  description : Option String
  headings : List String
  links_count : Nat
  images_count : Nat
  technologies : List String
  page_size_bytes : Nat
  load_time_ms : Nat
  deriving Repr

/-- The fixed technology signature table of
`WebAnalyzer._detect_technologies`, in source order. -/
def tech_signatures : List (String × List String) :=
  [("React", ["react", "_reactRootContainer", "data-reactroot"]),
   ("Vue.js", ["vue", "__vue__", "data-v-"]),
   ("Angular", ["ng-", "angular", "_ngcontent"]),
   ("jQuery", ["jquery", "jQuery"]),
   ("Bootstrap", ["bootstrap"]),
   ("Tailwind", ["tailwind"]),
   ("WordPress", ["wp-content", "wp-includes"]),
   ("Shopify", ["shopify", "cdn.shopify"]),
   ("Next.js", ["_next", "__NEXT_DATA__"]),
   ("Gatsby", ["gatsby"])]

/-- `sig.lower() in html.lower()` of the detection loop. -/
def sigMatches (html sig : String) : Bool :=
  hasSub (lowerList sig) (lowerList html)

/-- `WebAnalyzer._detect_technologies`: a technology is appended once if
any of its signatures occurs (the inner loop breaks on the first hit); the
final `list(set(...))` conversion preserves exactly this membership, so the
embedding returns the appended list (it is duplicate-free). -/
def detect_technologies (html : String) : List String :=
  (tech_signatures.filter (fun p => p.2.any (fun sig => sigMatches html sig))).map
    Prod.fst

/-- The heading extraction loop of `WebAnalyzer.analyze`: for each tag in
`["h1", "h2", "h3"]`, every matching element with non-empty stripped text
contributes `f"{tag}: {text}"`; the constructed list is capped by
`headings[:20]`. -/
def webHeadings (nodes : List HeadingNode) : List String :=
  (([HTag.h1, HTag.h2, HTag.h3]).flatMap (fun t =>
    ((nodes.filter (fun n => n.tag == t)).filter (fun n => n.text ≠ "")).map
      (fun n => t.label ++ ": " ++ n.text))).take 20

/-- Body of `WebAnalyzer.analyze` after a successful fetch. -/
def webExtract (page : HtmlPage) (pageBytes loadTime : Nat) : WebAnalysisResult :=
  { title := page.pageTitle
    description := truthy page.metaDescription
    headings := webHeadings page.headingNodes
    links_count := page.anchorsWithHref
    images_count := page.images
    technologies := detect_technologies page.raw
    page_size_bytes := pageBytes
    load_time_ms := loadTime }

/-- `WebAnalyzer.analyze`: `if not competitor.url: return None`, otherwise
the extraction on the fetched page. -/
def webAnalyze (url : Option String) (page : HtmlPage) (pageBytes loadTime : Nat) :
    Option WebAnalysisResult :=
  match url with
  | none => none
  | some _ => some (webExtract page pageBytes loadTime)

/-! ### SEO analyzer (`analyzers/seo.py`) -/

/-- Result record `SEOAnalysisResult` of `models.py` (`structured_data`
holds the successfully parsed JSON-LD blobs abstractly as their source
strings). -/
structure SEOAnalysisResult where
  meta_title : Option String
  meta_description : Option String
  meta_keywords : List String
  h1_tags : List String
  h2_tags : List String
  canonical_url : Option String
  robots_meta : Option String
  og_tags : List (String × String)
  structured_data : List String
  deriving Repr

/-- Python `dict` insert: overwriting a present key keeps its position,
a new key is appended. -/
def dictUpsert {α : Type} (d : List (String × α)) (k : String) (v : α) :
    List (String × α) :=
  if d.any (fun p => p.1 == k) then
    d.map (fun p => if p.1 == k then (k, v) else p)
  else d ++ [(k, v)]

/-- Python `dict.get`. -/
def dictGet {α : Type} (d : List (String × α)) (k : String) : Option α :=
  match d.find? (fun p => p.1 == k) with
  | some p => some p.2
  | none => none

/-- Python `key in dict`. -/
def dictHas {α : Type} (d : List (String × α)) (k : String) : Bool :=
  d.any (fun p => p.1 == k)

/-- Python `del dict[key]` (under the registry's unique-key invariant,
dropping every pair with the key). -/
def dictDel {α : Type} (d : List (String × α)) (k : String) : List (String × α) :=
  d.filter (fun p => p.1 ≠ k)

/-- The `og_tags` dict built by iterating the matching meta tags in
document order; later duplicate properties overwrite earlier ones.  Tags
with an empty property or empty content are skipped
(`if prop and content:`). -/
def buildOgTags (tags : List (String × String)) : List (String × String) :=
  tags.foldl (fun d p => if p.1 ≠ "" ∧ p.2 ≠ "" then dictUpsert d p.1 p.2 else d) []

/-- Body of `SEOAnalyzer.analyze` after a successful fetch. -/
def seoExtract (page : HtmlPage) : SEOAnalysisResult :=
  { meta_title := page.pageTitle
    meta_description := truthy page.metaDescription
    meta_keywords :=
      match truthy page.metaKeywordsContent with
      | none => []
      | some c => (splitOnComma c.toList).map (fun g => String.mk (trimChars g))
    h1_tags := (page.headingNodes.filter (fun n => n.tag == HTag.h1)).map (fun n => n.text)
    h2_tags :=
      ((page.headingNodes.filter (fun n => n.tag == HTag.h2)).map (fun n => n.text)).take 10
    canonical_url := truthy page.canonicalHref
    robots_meta := truthy page.robotsContent
    og_tags := buildOgTags page.ogMetaTags
    structured_data := (page.jsonLdBlocks.filterMap id).take 5 }

/-- `SEOAnalyzer.analyze`: `if not competitor.url: return None`, otherwise
the extraction on the fetched page. -/
def seoAnalyze (url : Option String) (page : HtmlPage) : Option SEOAnalysisResult :=
  match url with
  | none => none
  | some _ => some (seoExtract page)

/-! ### News analyzer (`analyzers/news.py`)

`NewsAnalyzer._parse_date` tries, in order, the `strptime` formats
`"%a, %d %b %Y %H:%M:%S %Z"`, `"%a, %d %b %Y %H:%M:%S %z"` and
`"%Y-%m-%dT%H:%M:%S%z"`, returning the first success.  The embedding below
follows CPython's `_strptime`: numeric fields match the longer (two-digit)
alternative of the format regex when it is range-valid and fall back to one
digit, whitespace in the format matches a run of whitespace, name fields
match case-insensitively, the whole string must be consumed, and values
that survive the regex but not `datetime(...)` construction (day beyond the
month's length, leap seconds 60/61, a zero year, an offset of a day or
more) raise `ValueError` and make `_parse_date` fall through to the next
format.  `%Z` is modelled as matching the portable names `UTC`/`GMT` and
yielding a naive result; `%z` yields an aware result with its offset in
microseconds. -/

/-- A parsed `datetime` value: calendar fields plus an optional UTC offset
in microseconds (`none` = naive). -/
structure PDateTime where
  year : Nat
  month : Nat
  day : Nat
  hour : Nat
  minute : Nat
  second : Nat
  tzoffset : Option Int
  deriving DecidableEq, Repr

/-- Numeric value of a decimal digit character. -/
def digitVal (c : Char) : Nat :=
  c.toNat - 48

/-- A 1-or-2-digit `strptime` field: the two-digit reading is taken when it
lies in `[lo, hi]`, otherwise a single digit of value at least `singleLo`
(`%d`/`%m` do not accept a lone `0`). -/
def parse2or1 (lo hi singleLo : Nat) : List Char → Option (Nat × List Char)
  | [] => none
  | [c1] =>
    if c1.isDigit ∧ singleLo ≤ digitVal c1 then some (digitVal c1, []) else none
  | c1 :: c2 :: rest =>
    if c1.isDigit then
      if c2.isDigit then
        if lo ≤ digitVal c1 * 10 + digitVal c2 ∧ digitVal c1 * 10 + digitVal c2 ≤ hi then
          some (digitVal c1 * 10 + digitVal c2, rest)
        else if singleLo ≤ digitVal c1 then some (digitVal c1, c2 :: rest) else none
      else if singleLo ≤ digitVal c1 then some (digitVal c1, c2 :: rest) else none
    else none

/-- `%Y`: exactly four digits. -/
def parseYear4 : List Char → Option (Nat × List Char)
  | c1 :: c2 :: c3 :: c4 :: rest =>
    if c1.isDigit ∧ c2.isDigit ∧ c3.isDigit ∧ c4.isDigit then
      some (((digitVal c1 * 10 + digitVal c2) * 10 + digitVal c3) * 10 + digitVal c4, rest)
    else none
  | _ => none

/-- One literal character of the format. -/
def parseLit (c : Char) : List Char → Option (List Char)
  | [] => none
  | x :: rest => if x == c then some rest else none

/-- A whitespace run: format whitespace matches one or more whitespace
characters. -/
def parseWs : List Char → Option (List Char)
  | [] => none
  | c :: rest =>
    if c.isWhitespace then some (rest.dropWhile Char.isWhitespace) else none

/-- Case-insensitive match of one name from a fixed table, returning its
associated value. -/
def parseName (table : List (String × Nat)) (cs : List Char) : Option (Nat × List Char) :=
  table.foldr
    (fun p acc =>
      if isPre (lowerList p.1) (cs.map Char.toLower) then
        some (p.2, cs.drop p.1.length)
      else acc)
    none

/-- The abbreviated weekday names `%a` accepts; the parsed weekday is not
cross-checked against the date, matching `strptime`. -/
def weekdayNames : List (String × Nat) :=
  [("Mon", 0), ("Tue", 1), ("Wed", 2), ("Thu", 3), ("Fri", 4), ("Sat", 5), ("Sun", 6)]

/-- The abbreviated month names `%b` accepts. -/
def monthNames : List (String × Nat) :=
  [("Jan", 1), ("Feb", 2), ("Mar", 3), ("Apr", 4), ("May", 5), ("Jun", 6),
   ("Jul", 7), ("Aug", 8), ("Sep", 9), ("Oct", 10), ("Nov", 11), ("Dec", 12)]

/-- `%Z` over the portable timezone names: `UTC` or `GMT`,
case-insensitively.  The parsed name leaves the result naive. -/
def parseTzName (cs : List Char) : Option (List Char) :=
  if isPre (lowerList "utc") (cs.map Char.toLower) ∨
      isPre (lowerList "gmt") (cs.map Char.toLower) then
    some (cs.drop 3)
  else none

/-- The optional fractional-seconds part of a `%z` match: `.` followed by
one to six digits (greedy), padded to microseconds; a bare `.` or anything
else is left unconsumed. -/
def parseFrac (cs : List Char) : Nat × List Char :=
  match cs with
  | '.' :: tl =>
    match tl.takeWhile Char.isDigit with
    | [] => (0, cs)
    | ds =>
      ((ds.take 6).foldl (fun a c => a * 10 + digitVal c) 0 *
         10 ^ (6 - (ds.take 6).length),
       tl.drop (ds.take 6).length)
  | _ => (0, cs)

/-- The optional seconds (and fraction) tail of a `%z` match.  The regex
group is `:?[0-5]\d` with an optional fraction; CPython then raises
`ValueError` (caught by `_parse_date`) when the colons are inconsistent —
a colon before the seconds but none before the minutes (`+0102:03` fails
at `int(':0')`), or seconds without a colon after colon-separated minutes
(`+01:0203` fails the normalization check).  Returns the seconds, the
fraction in microseconds and the rest, or `none` for the `ValueError`
paths; an unmatched tail is simply left unconsumed. -/
def parseOffsetSec (colon1 : Bool) (cs : List Char) : Option (Nat × Nat × List Char) :=
  match cs with
  | ':' :: s1 :: s2 :: tl =>
    if s1.isDigit ∧ digitVal s1 ≤ 5 ∧ s2.isDigit then
      if colon1 then
        some (digitVal s1 * 10 + digitVal s2, (parseFrac tl).1, (parseFrac tl).2)
      else none
    else some (0, 0, cs)
  | s1 :: s2 :: tl =>
    if s1.isDigit ∧ digitVal s1 ≤ 5 ∧ s2.isDigit then
      if colon1 then none
      else some (digitVal s1 * 10 + digitVal s2, (parseFrac tl).1, (parseFrac tl).2)
    else some (0, 0, cs)
  | _ => some (0, 0, cs)

/-- The minutes of a `%z` match — two digits with the tens digit at most
5, as the regex demands — followed by the optional seconds tail; yields
the combined seconds value `mm * 60 + ss`, the fraction in microseconds
and the rest. -/
def parseOffsetSecMin (colon1 : Bool) (cs : List Char) : Option (Nat × Nat × List Char) :=
  match cs with
  | m1 :: m2 :: tl =>
    if m1.isDigit ∧ digitVal m1 ≤ 5 ∧ m2.isDigit then
      match parseOffsetSec colon1 tl with
      | some (ss, frac, rest) =>
        some ((digitVal m1 * 10 + digitVal m2) * 60 + ss, frac, rest)
      | none => none
    else none
  | _ => none

/-- `%z`, after CPython's regex
`[+-] dd :? [0-5]d ( :? [0-5]d ( . d{1,6} )? )? | Z` (the `Z` only
uppercase) and the code behind it: an uppercase `Z` is offset 0; otherwise
a sign, two hour digits (unbounded by the regex), optionally a colon, two
minute digits with the tens digit at most 5, optionally seconds and a
fraction as in `parseOffsetSec`.  The resulting offset, in microseconds,
must be strictly less than 24 hours in magnitude or `timezone()` raises
`ValueError` (caught by `_parse_date`). -/
def parseOffset : List Char → Option (Int × List Char)
  | [] => none
  | c :: rest =>
    if c == 'Z' then some (0, rest)
    else if c == '+' ∨ c == '-' then
      match rest with
      | h1 :: h2 :: tail =>
        if h1.isDigit ∧ h2.isDigit then
          match (if (match tail with | ':' :: _ => true | _ => false) then
                   parseOffsetSecMin true (tail.drop 1)
                 else parseOffsetSecMin false tail) with
          | some (total, frac, rest2) =>
            if (digitVal h1 * 10 + digitVal h2) * 3600 + total < 86400 then
              some
                ((if c == '-' then
                    -(((((digitVal h1 * 10 + digitVal h2) * 3600 + total) * 1000000 +
                        frac : Nat) : Int))
                  else
                    (((((digitVal h1 * 10 + digitVal h2) * 3600 + total) * 1000000 +
                        frac : Nat) : Int))),
                 rest2)
            else none
          | none => none
        else none
      | _ => none
    else none

/-- Length of a month, with leap years (what `datetime(...)` enforces on
the day field). -/
def daysInMonth (y m : Nat) : Nat :=
  if m = 2 then
    if y % 4 = 0 ∧ (y % 100 ≠ 0 ∨ y % 400 = 0) then 29 else 28
  else if m = 4 ∨ m = 6 ∨ m = 9 ∨ m = 11 then 30
  else 31

/-- The validation `datetime(...)` performs on regex-accepted fields: a
positive year, a real day of the month and a second below 60 (the regex
admits leap seconds `60`/`61`, the constructor does not). -/
def mkDateTime (y mo d h mi s : Nat) (off : Option Int) : Option PDateTime :=
  if 1 ≤ y ∧ d ≤ daysInMonth y mo ∧ s ≤ 59 then some ⟨y, mo, d, h, mi, s, off⟩
  else none

/-- `strptime` with `"%a, %d %b %Y %H:%M:%S %Z"`. -/
def parseFmt1 (cs : List Char) : Option PDateTime := do
  let (_, cs) ← parseName weekdayNames cs
  let cs ← parseLit ',' cs
  let cs ← parseWs cs
  let (d, cs) ← parse2or1 1 31 1 cs
  let cs ← parseWs cs
  let (mo, cs) ← parseName monthNames cs
  let cs ← parseWs cs
  let (y, cs) ← parseYear4 cs
  let cs ← parseWs cs
  let (h, cs) ← parse2or1 0 23 0 cs
  let cs ← parseLit ':' cs
  let (mi, cs) ← parse2or1 0 59 0 cs
  let cs ← parseLit ':' cs
  let (s, cs) ← parse2or1 0 61 0 cs
  let cs ← parseWs cs
  let cs ← parseTzName cs
  if cs.isEmpty then mkDateTime y mo d h mi s none else none

/-- `strptime` with `"%a, %d %b %Y %H:%M:%S %z"`. -/
def parseFmt2 (cs : List Char) : Option PDateTime := do
  let (_, cs) ← parseName weekdayNames cs
  let cs ← parseLit ',' cs
  let cs ← parseWs cs
  let (d, cs) ← parse2or1 1 31 1 cs
  let cs ← parseWs cs
  let (mo, cs) ← parseName monthNames cs
  let cs ← parseWs cs
  let (y, cs) ← parseYear4 cs
  let cs ← parseWs cs
  let (h, cs) ← parse2or1 0 23 0 cs
  let cs ← parseLit ':' cs
  let (mi, cs) ← parse2or1 0 59 0 cs
  let cs ← parseLit ':' cs
  let (s, cs) ← parse2or1 0 61 0 cs
  let cs ← parseWs cs
  let (off, cs) ← parseOffset cs
  if cs.isEmpty then mkDateTime y mo d h mi s (some off) else none

/-- `strptime` with `"%Y-%m-%dT%H:%M:%S%z"`. -/
def parseFmt3 (cs : List Char) : Option PDateTime := do
  let (y, cs) ← parseYear4 cs
  let cs ← parseLit '-' cs
  let (mo, cs) ← parse2or1 1 12 1 cs
  let cs ← parseLit '-' cs
  let (d, cs) ← parse2or1 1 31 1 cs
  let cs ← parseLit 'T' cs
  let (h, cs) ← parse2or1 0 23 0 cs
  let cs ← parseLit ':' cs
  let (mi, cs) ← parse2or1 0 59 0 cs
  let cs ← parseLit ':' cs
  let (s, cs) ← parse2or1 0 61 0 cs
  let (off, cs) ← parseOffset cs
  if cs.isEmpty then mkDateTime y mo d h mi s (some off) else none

/-- `NewsAnalyzer._parse_date`: try the three formats in order, return the
first success, `None` when all fail. -/
def parse_date (s : String) : Option PDateTime :=
  match parseFmt1 s.toList with
  | some d => some d
  | none =>
    match parseFmt2 s.toList with
    | some d => some d
    | none => parseFmt3 s.toList

/-- Fuel-indexed worker for `stripHtml`; the fuel (initialised to the input
length, which is always sufficient) only discharges termination. -/
def stripTagsF : Nat → List Char → List Char
  | 0, cs => cs
  | _ + 1, [] => []
  | fuel + 1, c :: rest =>
    if c = '<' then
      match rest.dropWhile (fun x => x ≠ '>') with
      | '>' :: tl =>
        if rest.takeWhile (fun x => x ≠ '>') = [] then c :: stripTagsF fuel rest
        else stripTagsF fuel tl
      | _ => c :: stripTagsF fuel rest
    else c :: stripTagsF fuel rest

/-- `re.sub(r"<[^>]+>", "", s)`: each leftmost `<`…`>` pair with at least
one non-`>` character between is removed; an immediate `<>` or an unclosed
`<` is kept. -/
def stripHtml (s : String) : String :=
  String.mk (stripTagsF s.toList.length s.toList)

/-- One `channel/item` element as `_parse_rss` probes it with `find`: the
outer `Option` is element presence, the inner one the element's text
(`None` for an empty element). -/
structure RssItem where
  titleElem : Option (Option String)
  linkElem : Option (Option String)
  pubDateElem : Option (Option String)
  sourceElem : Option (Option String)
  descElem : Option (Option String)
  deriving Repr

/-- The `channel` element with its `item` children in document order. -/
structure RssChannel where
  items : List RssItem
  deriving Repr

/-- A successfully parsed RSS document: the root with an optional
`channel` child. -/
structure RssDoc where
  channel : Option RssChannel
  deriving Repr

/-- Record `NewsItem` of `models.py`. -/
structure NewsItem where
  title : String
  url : String
  source : Option String
  published_at : Option PDateTime
  snippet : Option String
  deriving DecidableEq, Repr

/-- The per-item body of `_parse_rss`'s loop: items lacking a `title` or
`link` element are skipped, the publish date is parsed only when the
`pubDate` element exists with truthy text, the source is the `source`
element's text when the element exists, and the snippet is the
HTML-stripped description truncated to 200 characters. -/
def parseRssItem (it : RssItem) : Option NewsItem :=
  match it.titleElem, it.linkElem with
  | some t, some l =>
    some
      { title := t.getD ""
        url := l.getD ""
        source := it.sourceElem.join
        published_at :=
          match it.pubDateElem with
          | some (some s) => if s = "" then none else parse_date s
          | _ => none
        snippet :=
          match it.descElem with
          | some (some d) => if d = "" then none else some (pyTake (stripHtml d) 200)
          | _ => none }
  | _, _ => none

/-- `NewsAnalyzer._parse_rss`: a `fromstring` parse error (modelled as
`none`) or a missing `channel` yields no items, otherwise the loop above
runs over the channel's items. -/
def parse_rss (doc : Option RssDoc) : List NewsItem :=
  match doc with
  | none => []
  | some root =>
    match root.channel with
    | none => []
    | some ch => ch.items.filterMap parseRssItem

/-- Record `NewsAnalysisResult` of `models.py`. -/
structure NewsAnalysisResult where
  items : List NewsItem
  total_mentions : Nat
  deriving DecidableEq, Repr

/-- `NewsAnalysisResult()` with its field defaults. -/
def emptyNews : NewsAnalysisResult :=
  { items := [], total_mentions := 0 }

/-- `NewsAnalyzer.analyze`: the fetched feed text is parsed (`parseXml`
stands for `ElementTree.fromstring`, `none` = `ParseError`); the result
keeps the first 20 items and the pre-truncation count; any fetch failure
falls into the `except` arm and yields the empty result. -/
def newsAnalyze (fetchResult : Except Unit String) (parseXml : String → Option RssDoc) :
    NewsAnalysisResult :=
  match fetchResult with
  | .error _ => emptyNews
  | .ok text =>
    { items := (parse_rss (parseXml text)).take 20
      total_mentions := (parse_rss (parseXml text)).length }

/-! ### Social model and the aggregate (`models.py`, needed by the
exporter) -/

/-- Record `SocialProfile` of `models.py`. -/
structure SocialProfile where
  platform : String
  handle : String
  followers : Option Nat
  following : Option Nat
  posts_count : Option Nat
  bio : Option String
  verified : Bool
  deriving DecidableEq, Repr

/-- Record `SocialAnalysisResult` of `models.py`. -/
structure SocialAnalysisResult where
  profiles : List SocialProfile
  deriving DecidableEq, Repr

/-- Record `AnalysisResult` of `models.py`; the `analyzed_at` timestamp is
carried as a `PDateTime`. -/
structure AnalysisResult where
  competitor_name : String
  analyzed_at : PDateTime
  web : Option WebAnalysisResult
  seo : Option SEOAnalysisResult
  news : Option NewsAnalysisResult
  social : Option SocialAnalysisResult
  deriving Repr

/-! ### CSV exporter (`exporters.py`) -/

/-- Two-digit zero padding for timestamp rendering. -/
def pad2 (n : Nat) : String :=
  if n < 10 then "0" ++ toString n else toString n

/-- `datetime.isoformat()` on a whole-second naive timestamp. -/
def isoformat (t : PDateTime) : String :=
  toString t.year ++ "-" ++ pad2 t.month ++ "-" ++ pad2 t.day ++ "T" ++
    pad2 t.hour ++ ":" ++ pad2 t.minute ++ ":" ++ pad2 t.second

/-- Python `f"{x:.2f}"` on the integral load times of the embedding. -/
def fmt2f (n : Nat) : String :=
  toString n ++ ".00"

/-- The `Web` section rows of `export_csv`. -/
def webRows (w : WebAnalysisResult) : List (List String) :=
  [["Web", "Title", w.title.getD ""],
   ["Web", "Description", w.description.getD ""],
   ["Web", "Links Count", toString w.links_count],
   ["Web", "Images Count", toString w.images_count],
   ["Web", "Page Size (bytes)", toString w.page_size_bytes],
   ["Web", "Load Time (ms)", fmt2f w.load_time_ms],
   ["Web", "Technologies", String.intercalate ", " w.technologies]] ++
  ((w.headings.take 10).enum.map
    (fun p => ["Web", "Heading " ++ toString (p.1 + 1), p.2]))

/-- The `SEO` section rows of `export_csv`. -/
def seoRows (s : SEOAnalysisResult) : List (List String) :=
  [["SEO", "Meta Title", s.meta_title.getD ""],
   ["SEO", "Meta Description", s.meta_description.getD ""],
   ["SEO", "Meta Keywords", String.intercalate ", " s.meta_keywords],
   ["SEO", "Canonical URL", s.canonical_url.getD ""],
   ["SEO", "Robots", s.robots_meta.getD ""]] ++
  (s.h1_tags.enum.map (fun p => ["SEO", "H1 " ++ toString (p.1 + 1), p.2])) ++
  ((s.h2_tags.take 5).enum.map (fun p => ["SEO", "H2 " ++ toString (p.1 + 1), p.2])) ++
  (s.og_tags.map (fun kv => ["SEO", "OG: " ++ kv.1, kv.2]))

/-- The `News` section rows of `export_csv`: three rows (title, URL,
source) per item, first 10 items only, after one total-mentions row. -/
def newsRows (n : NewsAnalysisResult) : List (List String) :=
  ["News", "Total Mentions", toString n.total_mentions] ::
  ((n.items.take 10).enum.flatMap
    (fun p =>
      [["News", "Article " ++ toString (p.1 + 1) ++ " Title", p.2.title],
       ["News", "Article " ++ toString (p.1 + 1) ++ " URL", p.2.url],
       ["News", "Article " ++ toString (p.1 + 1) ++ " Source", p.2.source.getD ""]]))

/-- The rows `export_csv` emits for one social profile: the handle always,
`Followers` only under `is not None`, `Bio` only under truthiness; the
`following`, `posts_count` and `verified` fields are never written. -/
def profileRows (p : SocialProfile) : List (List String) :=
  [["Social (" ++ p.platform ++ ")", "Handle", p.handle]] ++
  (match p.followers with
   | some f => [["Social (" ++ p.platform ++ ")", "Followers", toString f]]
   | none => []) ++
  (match p.bio with
   | some b =>
     if b = "" then [] else [["Social (" ++ p.platform ++ ")", "Bio", b]]
   | none => [])

/-- The `Social` section rows of `export_csv`. -/
def socialRows (s : SocialAnalysisResult) : List (List String) :=
  s.profiles.flatMap profileRows

/-- The full row list `export_csv` writes (header first, then the meta
rows, then one block per present analysis). -/
def export_csv_rows (r : AnalysisResult) : List (List String) :=
  [["Section", "Field", "Value"],
   ["Meta", "Competitor", r.competitor_name],
   ["Meta", "Analyzed At", isoformat r.analyzed_at]] ++
  (match r.web with | some w => webRows w | none => []) ++
  (match r.seo with | some s => seoRows s | none => []) ++
  (match r.news with | some n => newsRows n | none => []) ++
  (match r.social with | some s => socialRows s | none => [])

/-! ### Competitor registry (`config.py`, `models.py`) -/

/-- Record `Competitor` of `models.py` (the creation timestamp is carried
abstractly). -/
structure Competitor where
  name : String
  url : Option String
  twitter : Option String
  linkedin : Option String
  created_at : Nat
  deriving DecidableEq, Repr

/-- Record `Config` of `config.py`; `competitors` is the persisted
name-keyed `dict`.  The registry functions are modelled state-passing: the
`Config` value stands for the JSON file that `load_config` reads and
`save_config` wholly rewrites. -/
structure Config where
  competitors : List (String × Competitor)
  default_output_dir : String
  rate_limit_delay : Nat
  deriving DecidableEq, Repr

/-- `Config()` with its field defaults (the delay in whole time units). -/
def defaultConfig : Config :=
  { competitors := [], default_output_dir := "./output", rate_limit_delay := 1 }

/-- `config.add_competitor`: load, insert under the competitor's name,
save. -/
def add_competitor (cfg : Config) (c : Competitor) : Config :=
  { cfg with competitors := dictUpsert cfg.competitors c.name c }

/-- `config.get_competitor`. -/
def get_competitor (cfg : Config) (name : String) : Option Competitor :=
  dictGet cfg.competitors name

/-- `config.remove_competitor`: when the name is present, delete it, save
and return `True`; otherwise return `False` without saving (the second
component is the registry state after the call). -/
def remove_competitor (cfg : Config) (name : String) : Bool × Config :=
  if dictHas cfg.competitors name then
    (true, { cfg with competitors := dictDel cfg.competitors name })
  else (false, cfg)

/-! ### The `--all` run and the rate limiter (`cli.py`, `base.py`)

`_run_analysis` builds one fresh analyzer per kind (each with
`_last_request_time = 0`) and runs them in the fixed order
web, seo, news, social.  `_rate_limit` sleeps for the remainder of
`rate_limit_delay` since that analyzer's own previous request and then
records the new request time.  The timing model is deterministic
single-task semantics: the clock advances only through the modelled
sleeps, every other step takes zero time, and each `fetch_url` call emits
one outbound-request event at the current clock value. -/

/-- The four analysis kinds in the order `_run_analysis` iterates them
under `--all`. -/
inductive AnalysisKind
  | web
  | seo
  | news
  | social
  deriving DecidableEq, Repr

/-- How many `fetch_url` calls the kind's `analyze` performs on the given
competitor (successful-run path): web and seo fetch the site only when a
URL is configured, news always fetches the feed, social fetches only the
LinkedIn page (the Twitter branch builds its placeholder without a
request). -/
def fetchCount (k : AnalysisKind) (c : Competitor) : Nat :=
  match k with
  | .web => if (truthy c.url).isSome then 1 else 0
  | .seo => if (truthy c.url).isSome then 1 else 0
  | .news => 1
  | .social => if (truthy c.linkedin).isSome then 1 else 0

/-- `count` consecutive rate-limited fetches of one analyzer instance:
from clock `now` and the instance's `_last_request_time` `last`, each step
sleeps `delay - (now - last)` when the elapsed time is short, then fetches
and records the time.  Returns the emitted request times. -/
def runFetches (delay : Nat) : Nat → Nat → Nat → List Nat
  | 0, _, _ => []
  | count + 1, now, last =>
    let t := if now - last < delay then now + (delay - (now - last)) else now
    t :: runFetches delay count t t

/-- The requested kinds in order, each run on a fresh analyzer instance
(`_last_request_time = 0`), threading the clock; yields the outbound
request events as (kind, time) pairs. -/
def runKinds (delay : Nat) (c : Competitor) : List AnalysisKind → Nat → List (AnalysisKind × Nat)
  | [], _ => []
  | k :: ks, now =>
    ((runFetches delay (fetchCount k c) now 0).map (fun t => (k, t))) ++
      runKinds delay c ks
        (match (runFetches delay (fetchCount k c) now 0).getLast? with
         | some t => t
         | none => now)

/-- `_run_analysis` under `--all`, started at clock value `t0`. -/
def runAllModel (delay t0 : Nat) (c : Competitor) : List (AnalysisKind × Nat) :=
  runKinds delay c [.web, .seo, .news, .social] t0

/-! ### Claim-side reference definitions and concrete inputs -/

/-- The heading order claimed by the specification (for comparison with
`webHeadings`): the non-empty h1/h2/h3 texts in document order,
interleaved across levels, capped at the first 20, each tagged with its
level. -/
def specDocOrderHeadings (nodes : List HeadingNode) : List String :=
  ((nodes.filter (fun n => n.text ≠ "")).map
    (fun n => n.tag.label ++ ": " ++ n.text)).take 20

/-- A document whose first heading is an `h2`: document order and
by-level grouping disagree on it. -/
def c2Nodes : List HeadingNode :=
  [⟨HTag.h2, "Pricing"⟩, ⟨HTag.h1, "Acme"⟩]

/-- A competitor with a site URL and no social handles. -/
def acme : Competitor :=
  { name := "Acme", url := some "https://acme.test", twitter := none,
    linkedin := none, created_at := 0 }

/-- An aggregate whose social profile carries non-null `following` and
`posts_count` and a set `verified` flag, and whose news item carries a
date and a snippet. -/
def c3Result : AnalysisResult :=
  { competitor_name := "Acme"
    analyzed_at := ⟨2025, 1, 6, 12, 0, 0, none⟩
    web := none
    seo := none
    news := some
      { items :=
          [{ title := "Acme ships", url := "https://news.test/1",
             source := some "Wire",
             published_at := some ⟨2025, 1, 5, 9, 30, 0, none⟩,
             snippet := some "Acme shipped a thing" }]
        total_mentions := 1 }
    social := some
      { profiles :=
          [{ platform := "twitter", handle := "@acme",
             followers := none, following := some 12345,
             posts_count := some 678, bio := none, verified := true }] } }

/-- The SEO example page: exactly two `h2` elements and a meta keywords
tag with content `"a, b, c"`. -/
def c8Page : HtmlPage :=
  { pageTitle := some "Acme"
    metaDescription := none
    metaKeywordsContent := some "a, b, c"
    headingNodes := [⟨HTag.h1, "Welcome"⟩, ⟨HTag.h2, "First"⟩, ⟨HTag.h2, "Second"⟩]
    anchorsWithHref := 0
    images := 0
    canonicalHref := none
    robotsContent := none
    ogMetaTags := []
    jsonLdBlocks := []
    raw := "" }

/-- The Acme competitor record of the registry example. -/
def acmeEntry : Competitor :=
  { name := "Acme", url := some "https://acme.test", twitter := none,
    linkedin := none, created_at := 7 }

/-- The tagged non-empty headings of one level in document order: one
iteration of the `for tag in ["h1", "h2", "h3"]` loop of
`WebAnalyzer.analyze`. -/
def taggedNonEmpty (t : HTag) (nodes : List HeadingNode) : List String :=
  ((nodes.filter (fun n => n.tag == t)).filter (fun n => n.text ≠ "")).map
    (fun n => t.label ++ ": " ++ n.text)

/-- A feed item holding a title, a link and a `pubDate` in the first
supported format. -/
def c5Item : RssItem :=
  { titleElem := some (some "Acme raises")
    linkElem := some (some "https://news.test/acme")
    pubDateElem := some (some "Mon, 06 Jan 2025 13:45:30 GMT")
    sourceElem := none
    descElem := none }

/-! ## Theorems settling the claims -/

/-- C6: for every competitor without a configured site URL, both the web
and the SEO extractor return an absent (`none`) result, whatever page
content and fetch metadata would otherwise be in play; being total Lean
functions, the embedded extractors cannot raise. -/
theorem c6_no_url_absent_result (page : HtmlPage) (pageBytes loadTime : Nat) :
    webAnalyze none page pageBytes loadTime = none ∧ seoAnalyze none page = none :=
  ⟨rfl, rfl⟩

/-- C9: adding the competitor `"Acme"` with URL `https://acme.test` to an
empty registry makes lookup by `"Acme"` return an entry carrying that URL,
and after removing `"Acme"` the lookup returns `none`. -/
theorem c9_registry_add_lookup_remove :
    (∃ c, get_competitor (add_competitor defaultConfig acmeEntry) "Acme" = some c ∧
      c.url = some "https://acme.test") ∧
    get_competitor (remove_competitor (add_competitor defaultConfig acmeEntry) "Acme").2
      "Acme" = none := by
  exact ⟨⟨acmeEntry, rfl, rfl⟩, rfl⟩

/-- C10: `remove_competitor` on an absent name returns `False` and leaves
the stored mapping untouched; it returns `True` exactly when the name is
present, in which case the saved registry no longer holds the entry. -/
theorem c10_remove_absent_is_noop (cfg : Config) (name : String) :
    (dictHas cfg.competitors name = false → remove_competitor cfg name = (false, cfg)) ∧
    ((remove_competitor cfg name).1 = true ↔ dictHas cfg.competitors name = true) ∧
    (dictHas cfg.competitors name = true →
      remove_competitor cfg name =
        (true, { cfg with competitors := dictDel cfg.competitors name })) := by
  refine ⟨fun h => ?_, ?_, fun h => ?_⟩
  · simp [remove_competitor, h]
  · by_cases h : dictHas cfg.competitors name <;> simp [remove_competitor, h]
  · simp [remove_competitor, h]

/-- Witness for C10 at concrete registries: removing a name from the empty
registry is a `False` no-op, and removing a present name reports `True`. -/
theorem c10_remove_absent_is_noop_witness :
    remove_competitor defaultConfig "Ghost" = (false, defaultConfig) ∧
    (remove_competitor (add_competitor defaultConfig acmeEntry) "Acme").1 = true :=
  ⟨(c10_remove_absent_is_noop defaultConfig "Ghost").1 (by decide),
   (c10_remove_absent_is_noop (add_competitor defaultConfig acmeEntry) "Acme").2.2
     (by decide) ▸ rfl⟩

/-- C4: whenever the feed fetch fails, or it succeeds but the returned XML
is malformed (`ElementTree.fromstring` fails), `NewsAnalyzer.analyze`
returns the empty `NewsAnalysisResult` — zero items, zero
`total_mentions`; as a total function it propagates nothing. -/
theorem c4_news_failure_empty (parseXml : String → Option RssDoc)
    (fetchResult : Except Unit String) :
    (∀ e, fetchResult = Except.error e → newsAnalyze fetchResult parseXml = emptyNews) ∧
    (∀ s, fetchResult = Except.ok s → parseXml s = none →
      newsAnalyze fetchResult parseXml = emptyNews) ∧
    emptyNews.items = [] ∧ emptyNews.total_mentions = 0 := by
  refine ⟨?_, ?_, rfl, rfl⟩
  · rintro e rfl
    rfl
  · rintro s rfl h
    simp [newsAnalyze, parse_rss, h, emptyNews]

/-- Witness for C4: a transport failure and a malformed feed both yield
the empty result. -/
theorem c4_news_failure_empty_witness :
    newsAnalyze (Except.error ()) (fun _ => none) = emptyNews ∧
    newsAnalyze (Except.ok "<rss") (fun _ => none) = emptyNews :=
  ⟨(c4_news_failure_empty (fun _ => none) (Except.error ())).1 () rfl,
   (c4_news_failure_empty (fun _ => none) (Except.ok "<rss")).2.1 "<rss" rfl rfl⟩

/-- Each non-empty-text node falls under exactly one of the three heading
levels, so the three per-level lists together are as long as the non-empty
filter of the document. -/
theorem heading_count_split (nodes : List HeadingNode) :
    (taggedNonEmpty HTag.h1 nodes).length + (taggedNonEmpty HTag.h2 nodes).length +
      (taggedNonEmpty HTag.h3 nodes).length =
      (nodes.filter (fun n => n.text ≠ "")).length := by
  induction nodes with
  | nil => rfl
  | cons n rest ih =>
    rcases n with ⟨t, txt⟩
    cases t <;> by_cases h : txt = "" <;>
      simp_all [taggedNonEmpty, List.filter_cons] <;> omega

/-- C2 (counterexample): on a document whose first heading is an `h2`
followed by an `h1`, the extractor's headings list is grouped by level and
differs from the claimed document-order interleaving. -/
theorem c2_counterexample :
    webHeadings c2Nodes ≠ specDocOrderHeadings c2Nodes ∧
    webHeadings c2Nodes = ["h1: Acme", "h2: Pricing"] ∧
    specDocOrderHeadings c2Nodes = ["h2: Pricing", "h1: Acme"] := by
  refine ⟨by decide, by decide, by decide⟩

/-- C2 (amended): the headings list is the level-grouped concatenation —
all non-empty `h1` texts in document order, then the `h2` texts, then the
`h3` texts — capped at the first 20 entries of that grouped list; its
length is the combined non-empty heading count capped at 20, and every
entry is a level-tagged non-empty heading text of the document. -/
theorem c2_amended_grouped_headings (nodes : List HeadingNode) :
    webHeadings nodes =
      (taggedNonEmpty HTag.h1 nodes ++ taggedNonEmpty HTag.h2 nodes ++
        taggedNonEmpty HTag.h3 nodes).take 20 ∧
    (webHeadings nodes).length = min 20 ((nodes.filter (fun n => n.text ≠ "")).length) ∧
    (∀ s ∈ webHeadings nodes, ∃ n, n ∈ nodes ∧ n.text ≠ "" ∧
      s = n.tag.label ++ ": " ++ n.text) := by
  have hgrp : webHeadings nodes =
      (taggedNonEmpty HTag.h1 nodes ++ taggedNonEmpty HTag.h2 nodes ++
        taggedNonEmpty HTag.h3 nodes).take 20 := by
    simp [webHeadings, taggedNonEmpty, List.append_assoc]
  refine ⟨hgrp, ?_, ?_⟩
  · rw [hgrp, List.length_take, List.length_append, List.length_append,
      heading_count_split]
  · intro s hs
    rw [hgrp] at hs
    have hs' := List.mem_of_mem_take hs
    rcases List.mem_append.1 hs' with hs'' | h3
    · rcases List.mem_append.1 hs'' with h1 | h2
      · simp only [taggedNonEmpty, List.mem_map, List.mem_filter] at h1
        obtain ⟨n, ⟨⟨hn, htag⟩, hne⟩, rfl⟩ := h1
        exact ⟨n, hn, by simpa using hne, by simp_all⟩
      · simp only [taggedNonEmpty, List.mem_map, List.mem_filter] at h2
        obtain ⟨n, ⟨⟨hn, htag⟩, hne⟩, rfl⟩ := h2
        exact ⟨n, hn, by simpa using hne, by simp_all⟩
    · simp only [taggedNonEmpty, List.mem_map, List.mem_filter] at h3
      obtain ⟨n, ⟨⟨hn, htag⟩, hne⟩, rfl⟩ := h3
      exact ⟨n, hn, by simpa using hne, by simp_all⟩

/-- Witness for C2's amended theorem at the concrete two-heading document:
the grouped equality holds there, and the entry `"h1: Acme"` of the output
traces back to a non-empty heading node. -/
theorem c2_amended_grouped_headings_witness :
    webHeadings c2Nodes =
      (taggedNonEmpty HTag.h1 c2Nodes ++ taggedNonEmpty HTag.h2 c2Nodes ++
        taggedNonEmpty HTag.h3 c2Nodes).take 20 ∧
    (∃ n, n ∈ c2Nodes ∧ n.text ≠ "" ∧ "h1: Acme" = n.tag.label ++ ": " ++ n.text) :=
  ⟨(c2_amended_grouped_headings c2Nodes).1,
   (c2_amended_grouped_headings c2Nodes).2.2 "h1: Acme" (by decide)⟩

/-- C8: the SEO example page with two `h2` elements and meta keywords
`"a, b, c"` yields the comma-split, trimmed keyword list and two `h2`
texts; in general `analyze` succeeds on every configured URL and `h2_tags`
is the first-10 cap of the document-order `h2` texts. -/
theorem c8_seo_keywords_and_h2 :
    (seoExtract c8Page).meta_keywords = ["a", "b", "c"] ∧
    (seoExtract c8Page).h2_tags.length = 2 ∧
    (∀ u page, seoAnalyze (some u) page = some (seoExtract page)) ∧
    (∀ page, (seoExtract page).h2_tags =
      ((page.headingNodes.filter (fun n => n.tag == HTag.h2)).map
        (fun n => n.text)).take 10) ∧
    (∀ page, (seoExtract page).h2_tags.length ≤ 10) := by
  refine ⟨by decide, by decide, fun u page => rfl, fun page => rfl, fun page => ?_⟩
  simp only [seoExtract, List.length_take]
  exact Nat.min_le_left _ _

/-- A substring hit of `hasSub` is a hit at some position, and
conversely. -/
theorem hasSub_iff (needle hay : List Char) :
    hasSub needle hay = true ↔ ∃ i, isPre needle (hay.drop i) = true := by
  induction hay with
  | nil =>
    simp only [hasSub, List.drop_nil]
    exact ⟨fun h => ⟨0, h⟩, fun ⟨_, h⟩ => h⟩
  | cons c rest ih =>
    simp only [hasSub, Bool.or_eq_true, ih]
    constructor
    · rintro (h | ⟨j, hj⟩)
      · exact ⟨0, h⟩
      · exact ⟨j + 1, by simpa using hj⟩
    · rintro ⟨i, hi⟩
      cases i with
      | zero => exact Or.inl hi
      | succ j => exact Or.inr ⟨j, by simpa using hi⟩

/-- C7: technology detection is a deterministic function of the raw HTML;
its output is duplicate-free, and a technology is reported exactly when
one of its signature substrings from the fixed table occurs at some
position of the lower-cased document. -/
theorem c7_tech_detection (html : String) :
    detect_technologies html = detect_technologies html ∧
    (detect_technologies html).Nodup ∧
    (∀ tech, tech ∈ detect_technologies html ↔
      ∃ sigs, (tech, sigs) ∈ tech_signatures ∧
        ∃ sig ∈ sigs, ∃ i, isPre (lowerList sig) ((lowerList html).drop i) = true) := by
  refine ⟨rfl, ?_, ?_⟩
  · have hkeys : (tech_signatures.map Prod.fst).Nodup := by decide
    exact hkeys.sublist ((List.filter_sublist tech_signatures).map Prod.fst)
  · intro tech
    simp only [detect_technologies, List.mem_map, List.mem_filter]
    constructor
    · rintro ⟨⟨t, sigs⟩, ⟨hmem, hp⟩, rfl⟩
      simp only [List.any_eq_true] at hp
      obtain ⟨sig, hsig, hm⟩ := hp
      exact ⟨sigs, hmem, sig, hsig, (hasSub_iff _ _).1 hm⟩
    · rintro ⟨sigs, hmem, sig, hsig, i, hi⟩
      refine ⟨(tech, sigs), ⟨hmem, ?_⟩, rfl⟩
      simp only [List.any_eq_true]
      exact ⟨sig, hsig, (hasSub_iff _ _).2 ⟨i, hi⟩⟩

/-- Witness for C7 at a concrete page: a `data-reactroot` occurrence at
position 10 makes React detected, and the reported list is
duplicate-free. -/
theorem c7_tech_detection_witness :
    "React" ∈ detect_technologies "<div data-reactroot></div>" ∧
    (detect_technologies "<div data-reactroot></div>").Nodup :=
  ⟨((c7_tech_detection "<div data-reactroot></div>").2.2 "React").mpr
      ⟨["react", "_reactRootContainer", "data-reactroot"], by decide, "react",
        by decide, 10, by decide⟩,
   (c7_tech_detection "<div data-reactroot></div>").2.1⟩

/-- C3 (counterexample): `c3Result` carries a social profile with
non-null `following` and `posts_count` and a set `verified` flag, and a
news item with a publish date and a snippet, yet no CSV row carries any of
those values — the exporter writes no row at all for these scalar
fields. -/
theorem c3_counterexample :
    (∃ p, c3Result.social = some { profiles := [p] } ∧ p.following = some 12345 ∧
      p.posts_count = some 678 ∧ p.verified = true) ∧
    (∃ it, c3Result.news = some { items := [it], total_mentions := 1 } ∧
      it.published_at = some ⟨2025, 1, 5, 9, 30, 0, none⟩ ∧
      it.snippet = some "Acme shipped a thing") ∧
    ((export_csv_rows c3Result).filter (fun row => row.contains "12345")).length = 0 ∧
    ((export_csv_rows c3Result).filter (fun row => row.contains "678")).length = 0 ∧
    ((export_csv_rows c3Result).filter
      (fun row => row.contains "Acme shipped a thing")).length = 0 ∧
    ((export_csv_rows c3Result).filter
      (fun row => row.contains "2025-01-05T09:30:00")).length = 0 := by
  refine ⟨⟨_, rfl, rfl, rfl, rfl⟩, ⟨_, rfl, rfl, rfl⟩, ?_, ?_, ?_, ?_⟩ <;> decide

/-- The article block contributes three rows per processed item. -/
theorem newsArticleRows_length (l : List (Nat × NewsItem)) :
    (l.flatMap (fun p =>
      [["News", "Article " ++ toString (p.1 + 1) ++ " Title", p.2.title],
       ["News", "Article " ++ toString (p.1 + 1) ++ " URL", p.2.url],
       ["News", "Article " ++ toString (p.1 + 1) ++ " Source",
         p.2.source.getD ""]])).length = 3 * l.length := by
  induction l with
  | nil => rfl
  | cons x rest ih => simp [List.flatMap_cons, ih]; omega

/-- Row count of one social profile's block: the handle row, plus a
`Followers` row exactly when `followers` is non-null, plus a `Bio` row
exactly when the bio is truthy. -/
theorem profileRows_length (p : SocialProfile) :
    (profileRows p).length =
      1 + (if p.followers.isSome then 1 else 0) +
        (if (truthy p.bio).isSome then 1 else 0) := by
  rcases p with ⟨pf, h, fo, fg, pc, b, v⟩
  rcases fo with _ | f <;> rcases b with _ | b <;>
    simp [profileRows, truthy] <;> by_cases hb : b = "" <;> simp [hb]

/-- C3 (amended): the exporter writes a fixed flattening — header and two
meta rows; for a present web result its seven scalar rows (technologies
joined into one) plus the first 10 headings; for a present SEO result its
five scalar rows (keywords joined), all H1s, the first 5 H2s and all OG
pairs; for a present news result one total row plus three rows (title,
URL, source) for each of the first 10 items, never a date or snippet row;
for each social profile the handle, a `Followers` row only when non-null
and a `Bio` row only when truthy, and never rows for `following`,
`posts_count` or `verified`.  The row count states exactly that, and every
non-null `followers` value does get its row. -/
theorem c3_amended_export_rows (r : AnalysisResult) :
    (export_csv_rows r).length =
      3 + (match r.web with
           | none => 0
           | some w => 7 + min 10 w.headings.length) +
        (match r.seo with
         | none => 0
         | some s => 5 + s.h1_tags.length + min 5 s.h2_tags.length + s.og_tags.length) +
        (match r.news with
         | none => 0
         | some n => 1 + 3 * min 10 n.items.length) +
        (match r.social with
         | none => 0
         | some s =>
           (s.profiles.map (fun p =>
             1 + (if p.followers.isSome then 1 else 0) +
               (if (truthy p.bio).isSome then 1 else 0))).sum) ∧
    (∀ s, r.social = some s → ∀ p ∈ s.profiles, ∀ f, p.followers = some f →
      ["Social (" ++ p.platform ++ ")", "Followers", toString f] ∈ export_csv_rows r) := by
  constructor
  · have hweb : ∀ w, (webRows w).length = 7 + min 10 w.headings.length := by
      intro w
      simp [webRows, List.enum_length, List.length_take]
      omega
    have hseo : ∀ s, (seoRows s).length =
        5 + s.h1_tags.length + min 5 s.h2_tags.length + s.og_tags.length := by
      intro s
      simp [seoRows, List.enum_length, List.length_take]
      omega
    have hnews : ∀ n, (newsRows n).length = 1 + 3 * min 10 n.items.length := by
      intro n
      simp only [newsRows, List.length_cons, newsArticleRows_length,
        List.enum_length, List.length_take]
      omega
    have hsocial : ∀ s, (socialRows s).length =
        (s.profiles.map (fun p =>
          1 + (if p.followers.isSome then 1 else 0) +
            (if (truthy p.bio).isSome then 1 else 0))).sum := by
      intro s
      simp only [socialRows, List.length_flatMap, Function.comp_def]
      rw [List.map_congr_left (fun p _ => profileRows_length p)]
    simp only [export_csv_rows, List.length_append]
    rcases r.web with _ | w <;> rcases r.seo with _ | s <;>
      rcases r.news with _ | n <;> rcases r.social with _ | so <;>
      simp [hweb, hseo, hnews, hsocial]
  · intro s hs p hp f hf
    have hrow : ["Social (" ++ p.platform ++ ")", "Followers", toString f] ∈
        profileRows p := by
      rcases p with ⟨pf, h, fo, fg, pc, b, v⟩
      cases hf
      simp [profileRows]
    have hmem : ["Social (" ++ p.platform ++ ")", "Followers", toString f] ∈
        socialRows s := by
      simp only [socialRows, List.mem_flatMap]
      exact ⟨p, hp, hrow⟩
    simp only [export_csv_rows, hs, List.mem_append]
    exact Or.inr hmem

/-- Witness for C3's amended theorem at the concrete counterexample
aggregate: its row count instantiates the formula, and its profile-less
`followers` contributes no row while a followers-carrying profile
would. -/
theorem c3_amended_export_rows_witness :
    (export_csv_rows c3Result).length =
      3 + 0 + 0 + (1 + 3 * min 10 1) +
        (([(1 : Nat) + 0 + 0]).sum) := by
  have h := (c3_amended_export_rows c3Result).1
  simpa using h

/-- C5: for an item carrying title, link and a truthy `pubDate` string,
the parsed item is included in the result whatever the date string is; its
`published_at` is exactly `_parse_date`'s output, which is `None` iff all
three supported formats fail, and otherwise the value of the first format
(in the fixed order 1, 2, 3) that parses the string. -/
theorem c5_pubdate_parsing (s : String) (it : RssItem)
    (ht : ∃ t, it.titleElem = some t) (hl : ∃ l, it.linkElem = some l)
    (hp : it.pubDateElem = some (some s)) (hs : s ≠ "") :
    (∃ ni, parseRssItem it = some ni ∧ ni.published_at = parse_date s) ∧
    (∀ rest, ∃ ni, parse_rss (some ⟨some ⟨it :: rest⟩⟩) =
      ni :: parse_rss (some ⟨some ⟨rest⟩⟩) ∧ ni.published_at = parse_date s) ∧
    (parse_date s = none ↔
      parseFmt1 s.toList = none ∧ parseFmt2 s.toList = none ∧
        parseFmt3 s.toList = none) ∧
    (∀ d, parseFmt1 s.toList = some d → parse_date s = some d) ∧
    (∀ d, parseFmt1 s.toList = none → parseFmt2 s.toList = some d →
      parse_date s = some d) ∧
    (∀ d, parseFmt1 s.toList = none → parseFmt2 s.toList = none →
      parseFmt3 s.toList = some d → parse_date s = some d) := by
  obtain ⟨t, ht⟩ := ht
  obtain ⟨l, hl⟩ := hl
  rcases it with ⟨te, le, pe, se, de⟩
  simp only at ht hl hp
  subst ht
  subst hl
  subst hp
  have hni : ∃ ni, parseRssItem ⟨some t, some l, some (some s), se, de⟩ = some ni ∧
      ni.published_at = parse_date s :=
    ⟨_, rfl, by simp [parseRssItem, hs]⟩
  obtain ⟨ni, hitem, hpub⟩ := hni
  refine ⟨⟨ni, hitem, hpub⟩, ?_, ?_, ?_, ?_, ?_⟩
  · intro rest
    exact ⟨ni, by simp [parse_rss, List.filterMap_cons, hitem], hpub⟩
  · constructor
    · intro h
      unfold parse_date at h
      cases h1 : parseFmt1 s.toList with
      | some d => rw [h1] at h; simp at h
      | none =>
        rw [h1] at h
        cases h2 : parseFmt2 s.toList with
        | some d => rw [h2] at h; simp at h
        | none =>
          rw [h2] at h
          exact ⟨rfl, rfl, h⟩
    · rintro ⟨h1, h2, h3⟩
      unfold parse_date
      rw [h1, h2, h3]
  · intro d h1
    unfold parse_date
    rw [h1]
  · intro d h1 h2
    unfold parse_date
    rw [h1, h2]
  · intro d h1 h2 h3
    unfold parse_date
    rw [h1, h2, h3]

/-- Witness for C5: a first-format date string yields its denoted calendar
value (naive, as `%Z` leaves it); the `%z` forms with plain, second-valued
and fractional offsets yield their denoted aware values (offset in
microseconds); an unparseable string yields `none`. -/
theorem c5_pubdate_parsing_witness :
    (∃ ni, parseRssItem c5Item = some ni ∧
      ni.published_at = parse_date "Mon, 06 Jan 2025 13:45:30 GMT") ∧
    parse_date "Mon, 06 Jan 2025 13:45:30 GMT" =
      some ⟨2025, 1, 6, 13, 45, 30, none⟩ ∧
    parse_date "Mon, 06 Jan 2025 13:45:30 +0530" =
      some ⟨2025, 1, 6, 13, 45, 30, some 19800000000⟩ ∧
    parse_date "2025-01-06T13:45:30+01:02:03" =
      some ⟨2025, 1, 6, 13, 45, 30, some 3723000000⟩ ∧
    parse_date "2025-01-06T13:45:30+010203.5" =
      some ⟨2025, 1, 6, 13, 45, 30, some 3723500000⟩ ∧
    parse_date "2025-01-06T13:45:30Z" =
      some ⟨2025, 1, 6, 13, 45, 30, some 0⟩ ∧
    parse_date "last Tuesday" = none :=
  ⟨(c5_pubdate_parsing "Mon, 06 Jan 2025 13:45:30 GMT" c5Item ⟨_, rfl⟩ ⟨_, rfl⟩ rfl
      (by decide)).1,
   by decide, by decide, by decide, by decide, by decide, by decide⟩

/-- Each call to `runFetches` emits one event per requested fetch. -/
theorem runFetches_length (delay : Nat) :
    ∀ count now last, (runFetches delay count now last).length = count := by
  intro count
  induction count with
  | zero => intro now last; rfl
  | succ n ih => intro now last; simp [runFetches, ih]

/-- Within one analyzer instance, consecutive request times are at least
the configured delay apart: the per-instance guarantee of
`BaseAnalyzer._rate_limit`. -/
theorem runFetches_spacing (delay : Nat) :
    ∀ count now last i a b,
      (runFetches delay count now last).get? i = some a →
      (runFetches delay count now last).get? (i + 1) = some b →
      a + delay ≤ b := by
  intro count
  induction count with
  | zero =>
    intro now last i a b ha _
    simp [runFetches] at ha
  | succ n ih =>
    intro now last i a b ha hb
    simp only [runFetches] at ha hb
    cases i with
    | zero =>
      simp only [List.get?, Option.some.injEq] at ha hb
      cases n with
      | zero => simp [runFetches] at hb
      | succ m =>
        simp only [runFetches, Nat.sub_self, List.get?, Option.some.injEq] at hb
        rw [ha] at hb
        by_cases hd : 0 < delay
        · rw [if_pos hd] at hb
          omega
        · rw [if_neg hd] at hb
          omega
    | succ j =>
      exact ih _ _ j a b ha hb

/-- The events of a run list the requested kinds in their request order,
one entry per fetch that kind performs. -/
theorem runKinds_kinds (delay : Nat) (c : Competitor) :
    ∀ (ks : List AnalysisKind) (now : Nat),
      (runKinds delay c ks now).map Prod.fst =
        ks.flatMap (fun k => List.replicate (fetchCount k c) k) := by
  intro ks
  induction ks with
  | nil => intro now; rfl
  | cons k rest ih =>
    intro now
    simp only [runKinds, List.map_append, List.flatMap_cons, ih]
    congr 1
    rw [List.map_map]
    have hc : (Prod.fst ∘ fun t => ((k, t) : AnalysisKind × Nat)) =
        Function.const Nat k := rfl
    rw [hc, List.map_const, runFetches_length]

/-- C1 (counterexample): with the default delay 1 started at clock 5 on a
competitor with a site URL, the web, SEO and news extractors each issue
their request at the same instant 5 — two consecutive outbound requests
from different extractors are 0 < 1 apart, because every analyzer instance
is fresh with `_last_request_time = 0`. -/
theorem c1_counterexample :
    runAllModel 1 5 acme =
      [(AnalysisKind.web, 5), (AnalysisKind.seo, 5), (AnalysisKind.news, 5)] ∧
    (∃ t, (runAllModel 1 5 acme).get? 0 = some (AnalysisKind.web, t) ∧
      (runAllModel 1 5 acme).get? 1 = some (AnalysisKind.seo, t) ∧ t - t < 1) := by
  exact ⟨by decide, ⟨5, by decide, by decide, by decide⟩⟩

/-- C1 (amended): under `--all` the extractors run in the fixed order web,
seo, news, social — the event trace lists their requests in exactly that
order — while the rate limiter's minimum spacing holds only between
consecutive requests of one analyzer instance, not across extractors. -/
theorem c1_fixed_order_and_per_instance_spacing (delay t0 : Nat) (c : Competitor) :
    (runAllModel delay t0 c).map Prod.fst =
      [AnalysisKind.web, AnalysisKind.seo, AnalysisKind.news,
        AnalysisKind.social].flatMap (fun k => List.replicate (fetchCount k c) k) ∧
    (∀ count now last i a b,
      (runFetches delay count now last).get? i = some a →
      (runFetches delay count now last).get? (i + 1) = some b →
      a + delay ≤ b) :=
  ⟨runKinds_kinds delay c _ t0,
   fun count now last i a b => runFetches_spacing delay count now last i a b⟩

/-- Witness for C1's amended theorem: the concrete run at delay 2 from
clock 0 lists its kinds in the fixed order, and one instance's two
consecutive fetches at times 3 and 5 respect the delay. -/
theorem c1_fixed_order_and_per_instance_spacing_witness :
    (runAllModel 2 0 acme).map Prod.fst =
      [AnalysisKind.web, AnalysisKind.seo, AnalysisKind.news,
        AnalysisKind.social].flatMap (fun k => List.replicate (fetchCount k acme) k) ∧
    (3 : Nat) + 2 ≤ 5 :=
  ⟨(c1_fixed_order_and_per_instance_spacing 2 0 acme).1,
   (c1_fixed_order_and_per_instance_spacing 2 0 acme).2 2 3 0 0 3 5 (by decide)
     (by decide)⟩

end CompetitiveAnalysis
